import Mathlib

/-!
Verification development for the `database_chat_production` repository:
a shallow embedding, over `List Char` strings, of the question-answering
pipeline (SQL generation post-processing, query-executor validation,
result summarization, question rewriting, the `/ask` route handler with
its response cache, the session-history update, input validation and the
global error handler), together with theorems settling the specification
claims about these components.

Strings are modelled as `List Char` (`Str`).  JavaScript's `\s`,
`toUpperCase`/`toLowerCase` and `trim` are modelled on the ASCII range,
which covers every character the checked patterns and messages use.
-/

abbrev Str := List Char

/-- ASCII whitespace, modelling JavaScript's `\s` / `trim` on the ASCII range. -/
def isWs (c : Char) : Bool := c = ' ' ∨ c = '\t' ∨ c = '\n' ∨ c = '\r'

/-- ASCII upper-casing, modelling `String.prototype.toUpperCase` on ASCII text. -/
def upperChar (c : Char) : Char :=
  if 'a' ≤ c ∧ c ≤ 'z' then Char.ofNat (c.toNat - 32) else c

/-- ASCII lower-casing, modelling `String.prototype.toLowerCase` on ASCII text. -/
def lowerChar (c : Char) : Char :=
  if 'A' ≤ c ∧ c ≤ 'Z' then Char.ofNat (c.toNat + 32) else c

/-- Literal prefix test: `hasPrefixCl p l` holds when `p` is a prefix of `l`. -/
def hasPrefixCl : Str → Str → Bool
  | [], _ => true
  | _ :: _, [] => false
  | p :: ps, c :: cs => p = c && hasPrefixCl ps cs

/-- Contiguous containment: `containsSeq p l` holds when `p` occurs somewhere in `l`. -/
def containsSeq (p : Str) : Str → Bool
  | [] => hasPrefixCl p []
  | c :: cs => hasPrefixCl p (c :: cs) || containsSeq p cs

/-- Case-insensitive containment: `p` must be given upper-cased. -/
def containsCI (p : Str) (l : Str) : Bool := containsSeq p (l.map upperChar)

/-- Case-insensitive prefix test: `p` must be given upper-cased. -/
def hasPrefixCI (p : Str) (l : Str) : Bool := hasPrefixCl p (l.map upperChar)

/-- Drop trailing ASCII whitespace (the right half of `String.prototype.trim`). -/
def trimRight : Str → Str
  | [] => []
  | c :: cs =>
    match trimRight cs with
    | [] => if isWs c then [] else [c]
    | r => c :: r

/-- Model of `String.prototype.trim` (ASCII whitespace on both ends). -/
def trimStr (l : Str) : Str := trimRight (l.dropWhile isWs)

/-- Model of `xs.slice(-n)` on an array: the last `n` entries (all if shorter). -/
def takeLast (n : Nat) (l : List α) : List α := l.drop (l.length - n)

/-! ### dbService.js — `executeQuery` and its security validation -/

/-- The mutating keywords of the executor's `;\s*(DROP|DELETE|...)` pattern. -/
def mutatingKeywords : List Str :=
  ["DROP".data, "DELETE".data, "UPDATE".data, "INSERT".data, "ALTER".data,
   "CREATE".data, "TRUNCATE".data, "EXEC".data, "EXECUTE".data]

/-- Scan an upper-cased query for a `;` followed by optional whitespace and a
mutating keyword (the executor's first dangerous pattern, `/；.../i`-style). -/
def sepScan : Str → Bool
  | [] => false
  | c :: cs =>
    (c = ';' && mutatingKeywords.any (fun k => hasPrefixCl k (cs.dropWhile isWs)))
      || sepScan cs

/-- Model of the regex `/;\s*(DROP|DELETE|UPDATE|INSERT|ALTER|CREATE|TRUNCATE|EXEC|EXECUTE)/i`.
Since every keyword starts with a letter, the greedy `\s*` is equivalent to
skipping the whole whitespace run after the separator. -/
def sepThenMutating (q : Str) : Bool := sepScan (q.map upperChar)

/-- Model of `/\/\*[\s\S]*?\*\//` : a `/*` with a later matching `*/`.  The test
succeeds iff some `/*` occurrence is followed (disjointly) by `*/`. -/
def blockComment : Str → Bool
  | [] => false
  | c :: cs =>
    (hasPrefixCl "/*".data (c :: cs) && containsSeq "*/".data (cs.drop 1))
      || blockComment cs

/-- Model of the executor's line-comment regex (two hyphens, then `[^\r\n]*`,
then `$`, under the `m` flag).  With `m`, `$` matches at the end of every
line, so `[^\r\n]*` always reaches a position where `$` holds; the pattern
is therefore equivalent to containing `--`. -/
def lineComment (q : Str) : Bool := containsSeq "--".data q

/-- The executor's `dangerousPatterns.some (pattern => pattern.test query)`. -/
def hasDangerousPattern (q : Str) : Bool :=
  sepThenMutating q || containsCI "XP_CMDSHELL".data q
    || containsCI "SP_EXECUTESQL".data q || lineComment q || blockComment q

/-- The validation phase of `executeQuery` (dbService.js): `some msg` means the
query is rejected with that error message before any database call. -/
def validateSql (q : Str) : Option Str :=
  if trimStr q = [] then some "SQL query cannot be empty".data
  else if hasPrefixCl "SELECT".data ((trimStr q).map upperChar) = false then
    some "For security reasons, only SELECT queries are allowed.".data
  else if hasDangerousPattern q then
    some "Query contains potentially unsafe patterns.".data
  else none

/-- A database row: ordered (column name, rendered scalar value) pairs. -/
abbrev Row := List (Str × Str)

/-- The shape of an `mssql` driver error: `err.code`, `err.number`, `err.message`. -/
structure DbErr where
  code : Str
  number : Int
  message : Str
deriving DecidableEq

/-- The executor's mapping of driver errors to "user friendly" summaries
(dbService.js, the `catch` block's `if`/`else if` chain). -/
def friendlyDbMessage (e : DbErr) : Str :=
  if e.code = "ETIMEOUT".data then
    "Query execution timed out. Please try a simpler query.".data
  else if e.code = "ELOGIN".data then
    "Database authentication failed.".data
  else if e.code = "ECONNRESET".data then
    "Database connection was reset. Please try again.".data
  else if e.number = 2 then
    "Database server is not accessible.".data
  else if e.number = 207 then
    "Invalid column name in the generated query.".data
  else if e.number = 208 then
    "Invalid table name in the generated query.".data
  else "Error executing database query.".data

/-- The message of the error `executeQuery` re-throws on an execution failure:
`` `${userFriendlyMessage} Technical details: ${err.message}` ``. -/
def execFailureMessage (e : DbErr) : Str :=
  friendlyDbMessage e ++ " Technical details: ".data ++ e.message

/-- Model of `executeQuery` (dbService.js).  The pooled `request.query` call is
the oracle `db`; it is consulted only after every validation check passes.
The result is the recordset, or the thrown error's message. -/
def executeQuery (db : Str → Except DbErr (List Row)) (q : Str) :
    Except Str (List Row) :=
  match validateSql q with
  | some msg => .error msg
  | none =>
    match db q with
    | .ok recordset => .ok recordset
    | .error e => .error (execFailureMessage e)

/-! ### geminiService.js — SQL generation post-processing and retry loop -/

/-- Model of `.replace(/```sql/gi, '')`: remove every (case-insensitive,
non-overlapping, left-to-right) occurrence of the fenced language tag.
A tail shorter than the tag cannot match and is kept as is. -/
def replaceTickSql : Str → Str
  | a :: b :: c :: d :: e :: f :: rest =>
    if [a, b, c, d, e, f].map upperChar = "```SQL".data then replaceTickSql rest
    else a :: replaceTickSql (b :: c :: d :: e :: f :: rest)
  | l => l

/-- Model of `.replace(/```/g, '')`: remove every (non-overlapping,
left-to-right) occurrence of a code fence.  A tail shorter than a fence
cannot match and is kept as is. -/
def stripFences : Str → Str
  | a :: b :: c :: rest =>
    if [a, b, c] = "```".data then stripFences rest
    else a :: stripFences (b :: c :: rest)
  | l => l

/-- Model of `.replace(/^\s*sql\s*/i, '')`: if the string starts with optional
whitespace and a case-insensitive `sql` tag, remove that matched prefix
(including the whitespace following the tag); otherwise leave it unchanged. -/
def stripLeadingSqlTag (l : Str) : Str :=
  let r := l.dropWhile isWs
  if hasPrefixCI "SQL".data r then (r.drop 3).dropWhile isWs else l

/-- Message thrown when the model emits the unanswerable sentinel. -/
def cannotAnswerMessage : Str :=
  "This question cannot be answered using the available database schema.".data

/-- Message thrown when the cleaned output does not begin with `SELECT`. -/
def notSelectMessage (cleaned : Str) : Str :=
  "Generated query is not a SELECT statement: ".data ++ cleaned.take 100

/-- The test `sqlQuery.endsWith(';')` specialised to a single character. -/
def endsWithChar (c : Char) (l : Str) : Bool :=
  match l.reverse with
  | [] => false
  | d :: _ => d = c

/-- The post-processing `generateSql` applies to one raw model output
(geminiService.js, inside the retry loop): trim, reject the verbatim
`CANNOT_ANSWER` sentinel, strip code fences and a leading language tag,
require a `SELECT` prefix (case-insensitive), and append a trailing `;`
when absent.  Errors carry the thrown `Error` messages. -/
def processSqlOutput (rawText : Str) : Except Str Str :=
  let s0 := trimStr rawText
  if s0.map upperChar = "CANNOT_ANSWER".data then .error cannotAnswerMessage
  else
    let s1 := trimStr (stripLeadingSqlTag (stripFences (replaceTickSql s0)))
    if hasPrefixCI "SELECT".data s1 = false then .error (notSelectMessage s1)
    else .ok (if endsWithChar ';' s1 then s1 else s1 ++ [';'])

/-- The terminal failure message of `generateSql` after exhausting retries. -/
def sqlGenFailMessage (maxRetries : Nat) (lastErr : Str) : Str :=
  "Failed to generate SQL query after ".data ++ (toString maxRetries).data
    ++ " attempts. Last error: ".data ++ lastErr

/-- The `for attempt = 1..maxRetries` loop of `generateSql`.  The oracle
`comp` gives the completion service's raw text (or transport failure) for
each attempt; a malformed output and a transport failure alike consume one
attempt and carry their message into the next iteration's `lastError`. -/
def genSqlLoop (comp : Nat → Except Str Str) (maxRetries attempt fuel : Nat)
    (lastErr : Str) : Except Str Str :=
  match fuel with
  | 0 => .error (sqlGenFailMessage maxRetries lastErr)
  | f + 1 =>
    match comp attempt with
    | .error e => genSqlLoop comp maxRetries (attempt + 1) f e
    | .ok raw =>
      match processSqlOutput raw with
      | .ok sql => .ok sql
      | .error e => genSqlLoop comp maxRetries (attempt + 1) f e

/-- Model of `generateSql` (geminiService.js).  Prompt construction (schema
context truncation plus `createSqlGenerationPrompt`) only feeds the
completion call, so it is absorbed into the per-attempt oracle `comp`;
`"undefined"` models the initial `lastError?.message` of a null error. -/
def generateSql (comp : Nat → Except Str Str) (maxRetries : Nat) : Except Str Str :=
  genSqlLoop comp maxRetries 1 maxRetries "undefined".data

/-! ### geminiService.js — result summarization (`generateAnalysis`) -/

/-- Serialized length of one JSON string: quotes plus per-character cost as
`JSON.stringify` escapes it (common escapes are two characters, other
control characters six). -/
def jsonStrLen (s : Str) : Nat :=
  2 + (s.map (fun c =>
    if c = '"' ∨ c = '\\' ∨ c = '\n' ∨ c = '\r' ∨ c = '\t' ∨ c = '\x08' ∨ c = '\x0c' then 2
    else if c.toNat < 32 then 6
    else 1)).sum

/-- Serialized length of one row object under `JSON.stringify`. -/
def jsonRowLen (r : Row) : Nat :=
  2 + (r.map (fun kv => jsonStrLen kv.1 + 1 + jsonStrLen kv.2)).sum + (r.length - 1)

/-- Serialized length of `JSON.stringify(rows)` for string-valued cells. -/
def jsonSize (rows : List Row) : Nat :=
  2 + (rows.map jsonRowLen).sum + (rows.length - 1)

/-- Row cap of the summarizer's own truncation pass (`LIMITS.MAX_ANALYSIS_ROWS`). -/
def MAX_ANALYSIS_ROWS : Nat := 50

/-- Character budget of the summarizer's truncation pass (`LIMITS.MAX_ANALYSIS_CHARS`). -/
def MAX_ANALYSIS_CHARS : Nat := 50000

/-- Result record of `truncateDataForAnalysis`. -/
structure TruncInfo where
  truncated : List Row
  originalCount : Nat
  wasTruncated : Bool
  truncatedCount : Nat
deriving DecidableEq

/-- Model of `truncateDataForAnalysis` (geminiService.js): cap at
`MAX_ANALYSIS_ROWS` rows, then, if the serialized data still exceeds the
character budget, reduce further to `max 10` of the rows that fit by
average row size (the float average is modelled by the exact rational
floor `(budget * rows) / size`). -/
def truncateDataForAnalysis (queryResults : List Row) : TruncInfo :=
  match queryResults with
  | [] => ⟨[], 0, false, 0⟩
  | _ :: _ =>
    let originalCount := queryResults.length
    let t1 := queryResults.take MAX_ANALYSIS_ROWS
    let ds := jsonSize t1
    let t2 := if MAX_ANALYSIS_CHARS < ds then
        t1.take (max 10 ((MAX_ANALYSIS_CHARS * t1.length) / ds))
      else t1
    ⟨t2, originalCount, decide (t2.length < originalCount), t2.length⟩

/-- The fixed sentence returned for a null, undefined or empty result set. -/
def noDataMessage : Str := "No data was found matching your query criteria.".data

/-- The deterministic fallback sentence after the analysis retries are
exhausted; it reports only the pre-truncation row count. -/
def analysisFallback (originalCount : Nat) : Str :=
  if originalCount ≤ 10 then
    "Found ".data ++ (toString originalCount).data
      ++ " result(s). Analysis unavailable, but you can view the raw data below.".data
  else
    "Found ".data ++ (toString originalCount).data
      ++ " result(s). Analysis unavailable due to processing error. Please try refining your question or view the raw data.".data

/-- The bounded retry loop of `generateAnalysis`; returns the first
successful (trimmed) completion together with the number of completion
calls actually made. -/
def analysisLoop (comp : Nat → Except Str Str) (attempt fuel : Nat) :
    Option Str × Nat :=
  match fuel with
  | 0 => (none, 0)
  | f + 1 =>
    match comp attempt with
    | .ok t => (some (trimStr t), 1)
    | .error _ =>
      let r := analysisLoop comp (attempt + 1) f
      (r.1, r.2 + 1)

/-- Model of `generateAnalysis` (geminiService.js).  The second component
counts the completion-service calls made.  `none` models a null or
undefined `queryResults`.  `createAnalysisPrompt` only feeds the
completion call, so the prompt (and `originalQuestion`) are absorbed into
the per-attempt oracle `comp`.  The fast path requires a single row whose
object has exactly one key; the retry loop runs at most
`min maxRetries 2` attempts and degrades to `analysisFallback`. -/
def generateAnalysis (comp : Nat → Except Str Str) (maxRetries : Nat)
    (queryResults : Option (List Row)) : Str × Nat :=
  match queryResults with
  | none => (noDataMessage, 0)
  | some [] => (noDataMessage, 0)
  | some (firstRow :: rest) =>
    let ti := truncateDataForAnalysis (firstRow :: rest)
    if ti.originalCount = 1 ∧ ti.wasTruncated = false ∧ firstRow.length = 1 then
      ("Result: ".data ++ (firstRow.headD ([], [])).2, 0)
    else
      match analysisLoop comp 1 (min maxRetries 2) with
      | (some answer, calls) => (answer, calls)
      | (none, calls) => (analysisFallback ti.originalCount, calls)

/-! ### geminiService.js — `createStandaloneQuestion` (question rewriting) -/

/-- One turn of conversational history (`{role, content}`). -/
structure Turn where
  role : Str
  content : Str
deriving DecidableEq

/-- One transcript line: `` `${entry.role === 'user' ? 'User' : 'Bot'}: ${entry.content}` ``. -/
def historyLine (t : Turn) : Str :=
  (if t.role = "user".data then "User".data else "Bot".data) ++ ": ".data ++ t.content

/-- The transcript block: history lines joined with newlines. -/
def historyText (h : List Turn) : Str :=
  List.intercalate "\n".data (h.map historyLine)

/-- The rewriting instruction template, with the limited history transcript
and the follow-up question interpolated. -/
def rewritePrompt (h : List Turn) (q : Str) : Str :=
  "Given the following chat history and a follow-up question, rephrase the follow-up question to be a complete, standalone question that can be understood without the context of the chat history.\n\nChat History:\n---\n".data
    ++ historyText h ++ "\n---\n\nFollow-up Question: \"".data ++ q
    ++ "\"\n\nStandalone Question:".data

/-- Model of `createStandaloneQuestion` (geminiService.js).  The Bool records
whether a completion call was made.  An empty (or absent) history returns
the question unchanged with no call; only the last six history entries are
embedded in the prompt; and the `catch` turns any completion failure back
into the original question, so the function is total. -/
def createStandaloneQuestion (comp : Str → Except Str Str) (followUpQuestion : Str)
    (chatHistory : List Turn) : Str × Bool :=
  if chatHistory.isEmpty then (followUpQuestion, false)
  else
    match comp (rewritePrompt (takeLast 6 chatHistory) followUpQuestion) with
    | .ok t => (trimStr t, true)
    | .error _ => (followUpQuestion, true)

/-! ### middleware/validator.js — input validation and the global error handler -/

/-- Scan for `w1` followed by at least one whitespace character and then `w2`
(the shape of the harmful-question regexes such as the drop-table one).
Both keywords must be given upper-cased; the list is upper-cased inside.
Since keywords start with letters, the greedy `\s+` is equivalent to
skipping the whole whitespace run. -/
def kwGapKw (w1 w2 : Str) (l : Str) : Bool := go (l.map upperChar)
where
  go : Str → Bool
  | [] => false
  | c :: cs =>
    (hasPrefixCl w1 (c :: cs)
        && (let r := (c :: cs).drop w1.length
            decide (1 ≤ (r.takeWhile isWs).length) && hasPrefixCl w2 (r.dropWhile isWs)))
      || go cs

/-- Scan for `w1` followed by optional whitespace and an opening parenthesis
(the shape of the exec-call regexes).  `w1` must be given upper-cased. -/
def kwParen (w1 : Str) (l : Str) : Bool := go (l.map upperChar)
where
  go : Str → Bool
  | [] => false
  | c :: cs =>
    (hasPrefixCl w1 (c :: cs)
        && hasPrefixCl "(".data (((c :: cs).drop w1.length).dropWhile isWs))
      || go cs

/-- True when `c` is matched by the JavaScript regex `.` (no line terminator;
the rare ` `/` ` cases are outside the modelled ASCII range). -/
def dotChar (c : Char) : Bool := !(c = '\n' ∨ c = '\r')

/-- Existence of a match of pattern-tail `\s+.+SET` in `r` (upper-cased):
a nonempty whitespace run, then a nonempty line-terminator-free run, then
`SET`. -/
def wsDotSet (r : Str) : Bool :=
  (List.range (r.length + 1)).any fun p =>
    hasPrefixCl "SET".data (r.drop p)
      && (List.range p).any fun a =>
        decide (1 ≤ a) && decide (a + 1 ≤ p)
          && (r.take a).all isWs && ((r.take p).drop a).all dotChar

/-- Scan for the update-statement harmful pattern (`update`, whitespace,
some non-newline text, then `set`, case-insensitively). -/
def updateSetPat (l : Str) : Bool := go (l.map upperChar)
where
  go : Str → Bool
  | [] => false
  | c :: cs =>
    (hasPrefixCl "UPDATE".data (c :: cs) && wsDotSet ((c :: cs).drop 6)) || go cs

/-- The `harmfulPatterns.some(...)` check of `validateQuestion`. -/
def harmfulQuestion (q : Str) : Bool :=
  kwGapKw "DROP".data "TABLE".data q
    || kwGapKw "DELETE".data "FROM".data q
    || kwGapKw "TRUNCATE".data "TABLE".data q
    || kwGapKw "ALTER".data "TABLE".data q
    || kwGapKw "CREATE".data "TABLE".data q
    || kwGapKw "INSERT".data "INTO".data q
    || updateSetPat q
    || kwParen "EXEC".data q
    || kwParen "EXECUTE".data q
    || containsCI "XP_CMDSHELL".data q
    || containsCI "SP_EXECUTESQL".data q

/-- Outcome of the `validateQuestion` middleware: a 400 rejection carrying
`{error, code}`, or the sanitized (trimmed) question passed to the route. -/
inductive ValidationResult where
  | rejected (error : Str) (code : Str)
  | accepted (question : Str)
deriving DecidableEq

/-- Model of `validateQuestion` (middleware/validator.js) for a string-typed
body field (the `typeof question !== 'string'` rejection is a type-level
impossibility in this embedding, noted rather than modelled). -/
def validateQuestion (maxQueryLength : Nat) (question : Str) : ValidationResult :=
  if question.isEmpty then
    .rejected "Question is required.".data "MISSING_QUESTION".data
  else if (trimStr question).isEmpty then
    .rejected "Question cannot be empty.".data "EMPTY_QUESTION".data
  else if maxQueryLength < question.length then
    .rejected ("Question is too long. Maximum ".data ++ (toString maxQueryLength).data
      ++ " characters allowed.".data) "QUESTION_TOO_LONG".data
  else if harmfulQuestion question then
    .rejected "Question contains potentially harmful content.".data "HARMFUL_CONTENT".data
  else .accepted (trimStr question)

/-- The four `code` tags a `validateQuestion` rejection can carry in this
embedding. -/
def validationCodes : List Str :=
  ["MISSING_QUESTION".data, "EMPTY_QUESTION".data,
   "QUESTION_TOO_LONG".data, "HARMFUL_CONTENT".data]

/-- The JSON body the global error handler sends: `{error: {message, stack?}}`.
There is no kind/code tag in it. -/
structure ErrorPayload where
  message : Str
  stack : Option Str
deriving DecidableEq

/-- Model of `errorHandler` (the global error handler): the user-visible
message is the error's own `message` (with a default for an empty one),
and the stack trace is included exactly when `NODE_ENV === 'development'`. -/
def errorHandler (isDev : Bool) (errMessage errStack : Str) : ErrorPayload :=
  ⟨if errMessage.isEmpty then "An unexpected error occurred.".data else errMessage,
   if isDev then some errStack else none⟩

/-! ### routes/ask.js — the cached question-answering route -/

/-- The response `metadata` object (its `executionTimeMs` timing field is
wall-clock noise and is not modelled). -/
structure Metadata where
  schemaTablesUsed : Nat
  resultCount : Nat
deriving DecidableEq

/-- A cached value: `{answer, generatedSql, rawData, metadata}`. -/
structure CacheEntry where
  answer : Str
  generatedSql : Str
  rawData : List Row
  metadata : Metadata
deriving DecidableEq

/-- The route's successful response body.  `requestId`/`responseTime` are
per-request noise and are not modelled; note there is no truncation flag
field in the payload. -/
structure AskOk where
  answer : Str
  generatedSql : Str
  rawData : List Row
  metadata : Metadata
  cached : Bool
deriving DecidableEq

/-- The cache key: `question.toLowerCase().trim()`.  The route base64-encodes
these bytes, which is injective, so the key is modelled by the normalized
text itself. -/
def normKey (question : Str) : Str := trimStr (question.map lowerChar)

/-- Cache lookup (`cache.get`); the cache state holds the live, unexpired
entries, TTL expiry being modelled as removal from the state. -/
def cacheGet (k : Str) (c : List (Str × CacheEntry)) : Option CacheEntry :=
  (c.find? (fun e => e.1 = k)).map (·.2)

/-- Cache upsert (`cache.set`). -/
def cacheSet (k : Str) (v : CacheEntry) (c : List (Str × CacheEntry)) :
    List (Str × CacheEntry) :=
  (k, v) :: c.filter (fun e => ¬ e.1 = k)

/-- Model of `schemaContext.split('Table:').length - 1`: the number of
non-overlapping occurrences of `Table:`. -/
def countTableOcc : Str → Nat
  | a :: b :: c :: d :: e :: f :: rest =>
    if [a, b, c, d, e, f] = "Table:".data then 1 + countTableOcc rest
    else countTableOcc (b :: c :: d :: e :: f :: rest)
  | _ => 0

/-- The route's row-cap step: `queryResults.splice(config.security.maxResultRows)`
drops every row beyond the cap, in place. -/
def capRows (maxResultRows : Nat) (rows : List Row) : List Row :=
  if maxResultRows < rows.length then rows.take maxResultRows else rows

/-- The external calls the route makes, in order, one tag per pipeline stage. -/
inductive Stage where
  | retrieve
  | genSql
  | exec
  | analyze
deriving DecidableEq

/-- The route's collaborating services.  `retrieve` is
`ragService.retrieveRelevantSchemas` (wholly an external embedding/index
round-trip); `sqlComp` and `analysisComp` are the per-attempt completion
oracles threaded into `generateSql`/`generateAnalysis`; `db` is the
driver call inside `executeQuery` (the route's client-side
`Promise.race` timeout is one more way `db` can yield an error). -/
structure Services where
  retrieve : Str → Except Str Str
  sqlComp : Nat → Except Str Str
  db : Str → Except DbErr (List Row)
  analysisComp : Nat → Except Str Str

/-- Model of the `POST /` handler of routes/ask.js: cache lookup keyed by the
normalized question, then retrieval → SQL generation → execution → row
cap → summarization, assembling the response payload and populating the
cache on success.  Returns the response (or the terminal error message
passed to `next`), the updated cache, and the stages invoked. -/
def handleAsk (maxResultRows maxRetries : Nat) (sv : Services)
    (cache : List (Str × CacheEntry)) (question : Str) :
    Except Str AskOk × List (Str × CacheEntry) × List Stage :=
  let key := normKey question
  match cacheGet key cache with
  | some e => (.ok ⟨e.answer, e.generatedSql, e.rawData, e.metadata, true⟩, cache, [])
  | none =>
    match sv.retrieve question with
    | .error err => (.error err, cache, [.retrieve])
    | .ok schemaContext =>
      if (trimStr schemaContext).isEmpty then
        (.error "No relevant database schemas found for this question.".data,
         cache, [.retrieve])
      else
        match generateSql sv.sqlComp maxRetries with
        | .error err => (.error err, cache, [.retrieve, .genSql])
        | .ok sqlQuery =>
          match executeQuery sv.db sqlQuery with
          | .error err => (.error err, cache, [.retrieve, .genSql, .exec])
          | .ok queryResults =>
            let rows := capRows maxResultRows queryResults
            let finalAnswer := (generateAnalysis sv.analysisComp maxRetries (some rows)).1
            let md : Metadata := ⟨countTableOcc schemaContext, rows.length⟩
            (.ok ⟨finalAnswer, sqlQuery, rows, md, false⟩,
             cacheSet key ⟨finalAnswer, sqlQuery, rows, md⟩ cache,
             [.retrieve, .genSql, .exec, .analyze])

/-! ### The session-history update of the conversational `/ask` route -/

/-- Model of the history update after a successful run (the session-enabled
route): push the (user question, bot answer) pair, then, if the sequence
now exceeds `maxHistoryLength` pairs, `splice(0, 2)` the oldest pair. -/
def updateHistory (maxHistoryLength : Nat) (chatHistory : List Turn)
    (question finalAnswer : Str) : List Turn :=
  let pushed := chatHistory ++ [⟨"user".data, question⟩, ⟨"bot".data, finalAnswer⟩]
  if maxHistoryLength * 2 < pushed.length then pushed.drop 2 else pushed

/-! ### Bridging the scanning Booleans to list predicates -/

theorem hasPrefixCl_iff {p l : Str} : hasPrefixCl p l = true ↔ p <+: l := by
  induction p generalizing l with
  | nil => simp [hasPrefixCl]
  | cons a ps ih =>
    cases l with
    | nil => simp [hasPrefixCl]
    | cons c cs => simp [hasPrefixCl, List.cons_prefix_cons, ih]

theorem containsSeq_iff {p l : Str} : containsSeq p l = true ↔ p <:+: l := by
  induction l with
  | nil => simp [containsSeq, hasPrefixCl_iff]
  | cons c cs ih => simp [containsSeq, hasPrefixCl_iff, ih, List.infix_cons_iff]

theorem prefix_cons_decomp {p : Str} {c : Char} {X : Str} (hp : p ≠ []) :
    p <+: c :: X ↔ p.head? = some c ∧ p.tail <+: X := by
  cases p with
  | nil => simp at hp
  | cons a q => simp [List.cons_prefix_cons, eq_comm]

/-! ### No code fence survives `stripFences` -/

/-- The backtick character, obtained from the fence string itself. -/
def btChar : Char := "`".data.headD ' '

theorem tick1_eq : "`".data = [btChar] := rfl

theorem tick2_eq : "``".data = [btChar, btChar] := rfl

theorem tick3_eq : "```".data = [btChar, btChar, btChar] := rfl

theorem stripFences_cons_eq (a b c : Char) (rest : Str) :
    stripFences (a :: b :: c :: rest) =
      if [a, b, c] = "```".data then stripFences rest
      else a :: stripFences (b :: c :: rest) := rfl

theorem stripFences_nil : stripFences [] = [] := rfl

theorem stripFences_one (a : Char) : stripFences [a] = [a] := rfl

theorem stripFences_two (a b : Char) : stripFences [a, b] = [a, b] := rfl

theorem stripFences_head_tick : ∀ {l : Str},
    "`".data <+: stripFences l → "`".data <+: l := by
  intro l
  match l with
  | [] => intro h; rwa [stripFences_nil] at h
  | [a] => intro h; rwa [stripFences_one] at h
  | [a, b] => intro h; rwa [stripFences_two] at h
  | a :: b :: c :: rest =>
    rw [stripFences_cons_eq]
    by_cases h3 : [a, b, c] = "```".data
    · rw [if_pos h3]
      intro _
      rw [tick3_eq] at h3
      obtain ⟨rfl, -, -⟩ : a = btChar ∧ b = btChar ∧ c = btChar := by
        simpa using h3
      rw [tick1_eq]
      exact List.cons_prefix_cons.mpr ⟨rfl, List.nil_prefix⟩
    · rw [if_neg h3]
      intro h
      rw [tick1_eq] at h ⊢
      rcases List.cons_prefix_cons.mp h with ⟨rfl, -⟩
      exact List.cons_prefix_cons.mpr ⟨rfl, List.nil_prefix⟩

theorem stripFences_head_ticks : ∀ {l : Str},
    "``".data <+: stripFences l → "``".data <+: l := by
  intro l
  match l with
  | [] => intro h; rwa [stripFences_nil] at h
  | [a] => intro h; rwa [stripFences_one] at h
  | [a, b] => intro h; rwa [stripFences_two] at h
  | a :: b :: c :: rest =>
    rw [stripFences_cons_eq]
    by_cases h3 : [a, b, c] = "```".data
    · rw [if_pos h3]
      intro _
      rw [tick3_eq] at h3
      obtain ⟨rfl, rfl, -⟩ : a = btChar ∧ b = btChar ∧ c = btChar := by
        simpa using h3
      rw [tick2_eq]
      exact List.cons_prefix_cons.mpr
        ⟨rfl, List.cons_prefix_cons.mpr ⟨rfl, List.nil_prefix⟩⟩
    · rw [if_neg h3]
      intro h
      rw [tick2_eq] at h ⊢
      rcases List.cons_prefix_cons.mp h with ⟨rfl, h1⟩
      have h1' : "`".data <+: b :: c :: rest :=
        stripFences_head_tick (by rw [tick1_eq]; exact h1)
      rw [tick1_eq] at h1'
      rcases List.cons_prefix_cons.mp h1' with ⟨rfl, -⟩
      exact List.cons_prefix_cons.mpr
        ⟨rfl, List.cons_prefix_cons.mpr ⟨rfl, List.nil_prefix⟩⟩

theorem stripFences_no_fence : ∀ l : Str, ¬ ("```".data <:+: stripFences l)
  | [] => by
    rw [stripFences_nil]
    intro h
    have hl := h.length_le
    rw [tick3_eq] at hl
    simp at hl
  | [a] => by
    rw [stripFences_one]
    intro h
    have hl := h.length_le
    rw [tick3_eq] at hl
    simp at hl
  | [a, b] => by
    rw [stripFences_two]
    intro h
    have hl := h.length_le
    rw [tick3_eq] at hl
    simp at hl
  | a :: b :: c :: rest => by
    rw [stripFences_cons_eq]
    by_cases h3 : [a, b, c] = "```".data
    · rw [if_pos h3]
      exact stripFences_no_fence rest
    · rw [if_neg h3]
      intro hin
      rcases List.infix_cons_iff.mp hin with hpre | hin'
      · rw [tick3_eq] at hpre
        rcases List.cons_prefix_cons.mp hpre with ⟨rfl, h2⟩
        have h2' : "``".data <+: b :: c :: rest :=
          stripFences_head_ticks (by rw [tick2_eq]; exact h2)
        rw [tick2_eq] at h2'
        rcases List.cons_prefix_cons.mp h2' with ⟨rfl, h1⟩
        rcases List.cons_prefix_cons.mp h1 with ⟨rfl, -⟩
        exact h3 (by rw [tick3_eq])
      · exact stripFences_no_fence (b :: c :: rest) hin'

theorem containsSeq_eq_false_iff {p l : Str} :
    containsSeq p l = false ↔ ¬ p <:+: l := by
  rw [← containsSeq_iff]
  cases containsSeq p l <;> simp

theorem stripLeadingSqlTag_suffix (l : Str) : stripLeadingSqlTag l <:+ l := by
  unfold stripLeadingSqlTag
  by_cases h : hasPrefixCI "SQL".data (l.dropWhile isWs) = true
  · simp only [h, if_true]
    exact (List.dropWhile_suffix _).trans ((List.drop_suffix _ _).trans (List.dropWhile_suffix _))
  · simp only [h, if_false]
    exact List.suffix_refl l

theorem prefix_trimRight : ∀ l : Str, trimRight l <+: l
  | [] => by simp [trimRight]
  | c :: cs => by
    have hp := prefix_trimRight cs
    rw [trimRight]
    cases h : trimRight cs with
    | nil =>
      by_cases hw : isWs c = true
      · simp [hw]
      · simp [hw, List.cons_prefix_cons]
    | cons d ds =>
      rw [h] at hp
      exact List.cons_prefix_cons.mpr ⟨rfl, hp⟩

theorem infix_trimStr (l : Str) : trimStr l <:+: l :=
  ((prefix_trimRight _).isInfix).trans ((List.dropWhile_suffix _).isInfix)

theorem infix_of_concat {p l : Str} {c : Char} (hp : p ≠ [])
    (hc : p.getLast? ≠ some c) (h : p <:+: l ++ [c]) : p <:+: l := by
  obtain ⟨s, t, hst⟩ := h
  rcases List.eq_nil_or_concat t with rfl | ⟨t', d, rfl⟩
  · rcases List.eq_nil_or_concat p with rfl | ⟨p', e, rfl⟩
    · exact absurd rfl hp
    · simp only [List.concat_eq_append] at hst hc
      rw [List.append_nil] at hst
      have he : e = c := by
        have h1 := congrArg List.getLast? hst
        rw [← List.append_assoc] at h1
        simpa [List.getLast?_concat] using h1
      subst he
      exact absurd (by simp [List.getLast?_concat]) hc
  · simp only [List.concat_eq_append] at hst
    have h2 : (s ++ p ++ t') ++ [d] = l ++ [c] := by
      rw [← hst]; simp [List.append_assoc]
    have h3 := List.append_inj' h2 (by simp)
    exact ⟨s, t', h3.1⟩

/-! ### Settling the claims: the Query Executor's validation gate (C1) -/

/-- C1: every SQL string containing a statement separator followed by a
mutating keyword, a known dangerous stored-procedure name, or an inline
comment sequence is rejected by `executeQuery` with an error — the result
is the same error for every database oracle, so the query is never
executed; a match is a hard rejection, not a sanitize-and-continue. -/
theorem executor_rejects_dangerous_sql (q : Str)
    (hq : (sepThenMutating q || containsCI "XP_CMDSHELL".data q
            || containsCI "SP_EXECUTESQL".data q || lineComment q) = true) :
    ∃ msg, ∀ db, executeQuery db q = Except.error msg := by
  have hd : hasDangerousPattern q = true := by
    unfold hasDangerousPattern
    simp only [Bool.or_eq_true] at hq ⊢
    tauto
  have hv : ∃ msg, validateSql q = some msg := by
    unfold validateSql
    by_cases h1 : trimStr q = []
    · simp [h1]
    · by_cases h2 : hasPrefixCl "SELECT".data ((trimStr q).map upperChar) = false
      · simp [h1, h2]
      · simp [h1, h2, hd]
  obtain ⟨msg, hm⟩ := hv
  exact ⟨msg, fun db => by unfold executeQuery; rw [hm]⟩

/-- Witness for C1 at the spec's own example `SELECT 1; DROP TABLE x`. -/
theorem executor_rejects_dangerous_sql_witness :
    ∃ msg, ∀ db, executeQuery db ("SELECT 1; DROP TABLE x".data) = Except.error msg :=
  executor_rejects_dangerous_sql _ (by decide)

/-! ### Settling the claims: SQL Generator post-processing (C4) -/

theorem processSqlOutput_ok_shape {raw out : Str}
    (h : processSqlOutput raw = .ok out) :
    containsSeq "```".data out = false ∧ hasPrefixCI "SELECT".data out = true
      ∧ endsWithChar ';' out = true := by
  unfold processSqlOutput at h
  by_cases hca : (trimStr raw).map upperChar = "CANNOT_ANSWER".data
  · rw [if_pos hca] at h; exact absurd h (by simp)
  · rw [if_neg hca] at h
    set s1 := trimStr (stripLeadingSqlTag (stripFences (replaceTickSql (trimStr raw)))) with hs1
    by_cases hsel : hasPrefixCI "SELECT".data s1 = false
    · rw [if_pos hsel] at h; exact absurd h (by simp)
    · rw [if_neg hsel] at h
      have hselT : hasPrefixCI "SELECT".data s1 = true := by
        revert hsel; cases hasPrefixCI "SELECT".data s1 <;> simp
      have hM : s1 <:+: stripFences (replaceTickSql (trimStr raw)) :=
        (infix_trimStr _).trans (stripLeadingSqlTag_suffix _).isInfix
      have hnf : ¬ ("```".data <:+: s1) := fun hin =>
        stripFences_no_fence (replaceTickSql (trimStr raw)) (hin.trans hM)
      by_cases hend : endsWithChar ';' s1 = true
      · rw [if_pos hend] at h
        obtain rfl : s1 = out := by simpa using h
        exact ⟨containsSeq_eq_false_iff.mpr hnf, hselT, hend⟩
      · rw [if_neg hend] at h
        obtain rfl : s1 ++ [';'] = out := by simpa using h
        refine ⟨?_, ?_, ?_⟩
        · exact containsSeq_eq_false_iff.mpr fun hin =>
            hnf (infix_of_concat (by decide) (by decide) hin)
        · unfold hasPrefixCI at hselT ⊢
          rw [List.map_append]
          exact hasPrefixCl_iff.mpr
            ((hasPrefixCl_iff.mp hselT).trans (List.prefix_append _ _))
        · simp [endsWithChar, List.reverse_append]

theorem genSqlLoop_ok_means_processed {comp : Nat → Except Str Str}
    {out : Str} :
    ∀ {maxR attempt fuel : Nat} {lastErr : Str},
    genSqlLoop comp maxR attempt fuel lastErr = .ok out →
    ∃ raw, processSqlOutput raw = .ok out := by
  intro maxR attempt fuel
  induction fuel generalizing attempt with
  | zero => intro lastErr h; exact absurd h (by simp [genSqlLoop])
  | succ f ih =>
    intro lastErr h
    rw [genSqlLoop] at h
    cases hc : comp attempt with
    | error e => simp only [hc] at h; exact ih h
    | ok raw =>
      simp only [hc] at h
      cases hp : processSqlOutput raw with
      | error e => simp only [hp] at h; exact ih h
      | ok sql =>
        simp only [hp] at h
        obtain rfl : sql = out := by simpa using h
        exact ⟨raw, hp⟩

/-- C4: a successful return of `generateSql` is fence-free, starts with
`SELECT` (case-insensitively) and ends with `;` (appended when absent);
and a raw output equal (up to trim and case) to the `CANNOT_ANSWER`
sentinel is raised as a generation failure with its own distinguishing
message rather than returned.  (A cleaned output of any other non-SELECT
shape yields the distinct `notSelectMessage` failure by the second `if`
of `processSqlOutput`.) -/
theorem generateSql_output_contract (comp : Nat → Except Str Str)
    (maxRetries : Nat) (out : Str) :
    (generateSql comp maxRetries = .ok out →
      containsSeq "```".data out = false ∧ hasPrefixCI "SELECT".data out = true
        ∧ endsWithChar ';' out = true) ∧
    (∀ raw : Str, (trimStr raw).map upperChar = "CANNOT_ANSWER".data →
      processSqlOutput raw = .error cannotAnswerMessage) := by
  constructor
  · intro h
    obtain ⟨raw, hp⟩ := genSqlLoop_ok_means_processed h
    exact processSqlOutput_ok_shape hp
  · intro raw hca
    unfold processSqlOutput
    rw [if_pos hca]

/-- Witness for C4: a fenced, language-tagged model output is cleaned into a
well-formed `SELECT ... ;`, and a lower-case sentinel output is rejected
with the distinguishing unanswerable message. -/
theorem generateSql_output_contract_witness :
    (containsSeq "```".data ("SELECT TOP (5) name FROM dbo.employees;".data) = false
        ∧ hasPrefixCI "SELECT".data ("SELECT TOP (5) name FROM dbo.employees;".data) = true
        ∧ endsWithChar ';' ("SELECT TOP (5) name FROM dbo.employees;".data) = true)
      ∧ processSqlOutput "cannot_answer".data = .error cannotAnswerMessage := by
  constructor
  · exact (generateSql_output_contract
      (fun _ => .ok "```sql\nSELECT TOP (5) name FROM dbo.employees\n```".data) 1 _).1 rfl
  · exact (generateSql_output_contract (fun _ => .ok []) 1 []).2
      "cannot_answer".data (by decide)

/-! ### Settling the claims: question rewriting degrades gracefully (C7) -/

/-- C7: `createStandaloneQuestion` never fails its caller.  With an empty (or
absent) history it returns the question unchanged and makes no completion
call; and whenever the one completion call it would make fails (timeout
included), it returns the original question unmodified. -/
theorem createStandaloneQuestion_never_fails (comp : Str → Except Str Str)
    (q : Str) (h : List Turn) :
    (h = [] → createStandaloneQuestion comp q h = (q, false)) ∧
    (∀ e, comp (rewritePrompt (takeLast 6 h) q) = .error e →
      (createStandaloneQuestion comp q h).1 = q) := by
  constructor
  · rintro rfl; rfl
  · intro e he
    unfold createStandaloneQuestion
    cases hh : h.isEmpty with
    | true => rfl
    | false => simp only [hh, Bool.false_eq_true, if_false, he]

/-- Witness for C7: the empty-history fast path, and a failing completion
call falling back to the original question. -/
theorem createStandaloneQuestion_never_fails_witness :
    createStandaloneQuestion (fun _ => .error "Rewrite timeout".data) "q".data []
        = ("q".data, false)
      ∧ (createStandaloneQuestion (fun _ => .error "Rewrite timeout".data) "q".data
          [⟨"user".data, "hello".data⟩]).1 = "q".data :=
  ⟨(createStandaloneQuestion_never_fails _ _ _).1 rfl,
   (createStandaloneQuestion_never_fails _ _ _).2 "Rewrite timeout".data rfl⟩

/-! ### Settling the claims: summarizer guards and degradation (C8–C10) -/

/-- C10: a null, undefined or zero-row result set returns the fixed no-data
sentence immediately — zero completion calls, so neither the retry loop
nor the truncation pass is consulted. -/
theorem generateAnalysis_empty_guard (comp : Nat → Except Str Str)
    (maxRetries : Nat) :
    generateAnalysis comp maxRetries none = (noDataMessage, 0)
      ∧ generateAnalysis comp maxRetries (some []) = (noDataMessage, 0) :=
  ⟨rfl, rfl⟩

theorem truncate_single (r : Row) :
    truncateDataForAnalysis [r] = ⟨[r], 1, false, 1⟩ := by
  have h1 : ∀ n, 1 ≤ n → ([r] : List Row).take n = [r] := fun n hn =>
    List.take_of_length_le (by simpa using hn)
  rw [truncateDataForAnalysis]
  simp only [List.length_cons, List.length_nil, Nat.zero_add]
  rw [h1 MAX_ANALYSIS_ROWS (by decide)]
  by_cases hds : MAX_ANALYSIS_CHARS < jsonSize [r]
  · rw [if_pos hds, h1 _ (le_trans (by norm_num) (Nat.le_max_left 10 _))]
    simp
  · rw [if_neg hds]
    simp

/-- C9: a result of exactly one row with exactly one column returns
`Result: <value>` directly, with zero completion calls. -/
theorem generateAnalysis_single_cell_fast_path (comp : Nat → Except Str Str)
    (maxRetries : Nat) (k v : Str) :
    generateAnalysis comp maxRetries (some [[(k, v)]])
      = ("Result: ".data ++ v, 0) := by
  unfold generateAnalysis
  dsimp only
  rw [truncate_single [(k, v)]]
  simp

/-- The retry pattern `r.length = 1` test for a one-row result set. -/
def singleCellResult (rs : List Row) : Bool :=
  match rs with
  | [r] => r.length = 1
  | _ => false

theorem analysisLoop_all_fail {comp : Nat → Except Str Str}
    (hfail : ∀ i, ∃ e, comp i = .error e) :
    ∀ fuel attempt, analysisLoop comp attempt fuel = (none, fuel) := by
  intro fuel
  induction fuel with
  | zero => intro a; rfl
  | succ f ih =>
    intro a
    obtain ⟨e, he⟩ := hfail a
    simp [analysisLoop, he, ih]

/-- C8: for a non-empty result set that does not hit the single-cell fast
path, `generateAnalysis` is total and, when every completion attempt
fails, returns the deterministic fallback sentence built from the
pre-truncation row count alone, after `min maxRetries 2` attempts — a
retry budget strictly below the SQL stage's whenever that stage retries
more than twice (the default configuration is three). -/
theorem generateAnalysis_degrades (comp : Nat → Except Str Str)
    (maxRetries : Nat) (rs : List Row) (hne : rs ≠ [])
    (hshape : singleCellResult rs = false)
    (hfail : ∀ i, ∃ e, comp i = .error e) :
    generateAnalysis comp maxRetries (some rs)
        = (analysisFallback rs.length, min maxRetries 2)
      ∧ (2 < maxRetries → min maxRetries 2 < maxRetries) := by
  refine ⟨?_, fun hgt => by omega⟩
  cases rs with
  | nil => exact absurd rfl hne
  | cons r rest =>
    have hoc : (truncateDataForAnalysis (r :: rest)).originalCount
        = (r :: rest).length := rfl
    have hcond : ¬ ((truncateDataForAnalysis (r :: rest)).originalCount = 1
        ∧ (truncateDataForAnalysis (r :: rest)).wasTruncated = false
        ∧ r.length = 1) := by
      cases rest with
      | nil =>
        rintro ⟨-, -, hr⟩
        rw [singleCellResult] at hshape
        simp [hr] at hshape
      | cons r2 rest2 =>
        rintro ⟨h1, -, -⟩
        rw [hoc] at h1
        simp at h1
    unfold generateAnalysis
    dsimp only
    rw [if_neg hcond, analysisLoop_all_fail hfail]
    show (analysisFallback (truncateDataForAnalysis (r :: rest)).originalCount,
        min maxRetries 2) = (analysisFallback (r :: rest).length, min maxRetries 2)
    rw [hoc]

/-- Witness for C8: a one-row, two-column result with an always-failing
completion oracle and the default three retries degrades to the fallback
sentence after two attempts. -/
theorem generateAnalysis_degrades_witness :
    generateAnalysis (fun _ => .error "Analysis timeout".data) 3
        (some [[("a".data, "1".data), ("b".data, "2".data)]])
      = (analysisFallback 1, 2)
      ∧ (2 < 3 → min 3 2 < 3) :=
  generateAnalysis_degrades (fun _ => .error "Analysis timeout".data) 3
    [[("a".data, "1".data), ("b".data, "2".data)]] (by decide) (by decide)
    (fun _ => ⟨"Analysis timeout".data, rfl⟩)

/-! ### Settling the claims: session history bound and FIFO eviction (C5) -/

/-- C5: starting from a stored sequence of whole pairs within the bound, the
history update keeps the sequence within `maxHistoryLength` pairs
(`2 * m` entries), the appended (user, bot) pair is always the tail of
the stored sequence (the newest pair is never dropped), and on overflow
it is exactly the front pair — the oldest — that is dropped.  The code
coalesces a falsy configured length to 10, so `1 ≤ m`. -/
theorem history_bounded_fifo (m : Nat) (h : List Turn) (q a : Str)
    (hm : 1 ≤ m) (heven : h.length % 2 = 0) (hlen : h.length ≤ 2 * m) :
    (updateHistory m h q a).length ≤ 2 * m ∧
    ∃ pre, updateHistory m h q a
        = pre ++ [⟨"user".data, q⟩, ⟨"bot".data, a⟩]
      ∧ ((h.length + 2 ≤ 2 * m ∧ pre = h)
          ∨ (2 * m < h.length + 2 ∧ pre = h.drop 2)) := by
  unfold updateHistory
  by_cases hov : m * 2 < (h ++ [(⟨"user".data, q⟩ : Turn), ⟨"bot".data, a⟩]).length
  · rw [if_pos hov]
    simp only [List.length_append, List.length_cons, List.length_nil] at hov
    have h2 : 2 ≤ h.length := by omega
    rw [List.drop_append_of_le_length h2]
    refine ⟨?_, h.drop 2, rfl, Or.inr ⟨by omega, rfl⟩⟩
    simp only [List.length_append, List.length_drop, List.length_cons, List.length_nil]
    omega
  · rw [if_neg hov]
    simp only [List.length_append, List.length_cons, List.length_nil] at hov
    refine ⟨?_, h, rfl, Or.inl ⟨by omega, rfl⟩⟩
    simp only [List.length_append, List.length_cons, List.length_nil]
    omega

/-- Witness for C5 at a full two-pair history with `maxHistoryLength = 2`:
the oldest pair is evicted and the new pair survives at the tail. -/
theorem history_bounded_fifo_witness :
    (updateHistory 2 [⟨"user".data, "q1".data⟩, ⟨"bot".data, "a1".data⟩,
        ⟨"user".data, "q2".data⟩, ⟨"bot".data, "a2".data⟩] "q3".data "a3".data).length ≤ 2 * 2
      ∧ ∃ pre, updateHistory 2 [⟨"user".data, "q1".data⟩, ⟨"bot".data, "a1".data⟩,
          ⟨"user".data, "q2".data⟩, ⟨"bot".data, "a2".data⟩] "q3".data "a3".data
            = pre ++ [⟨"user".data, "q3".data⟩, ⟨"bot".data, "a3".data⟩]
        ∧ (([⟨"user".data, "q1".data⟩, ⟨"bot".data, "a1".data⟩,
             ⟨"user".data, "q2".data⟩, ⟨"bot".data, "a2".data⟩] : List Turn).length + 2 ≤ 2 * 2
              ∧ pre = [⟨"user".data, "q1".data⟩, ⟨"bot".data, "a1".data⟩,
                  ⟨"user".data, "q2".data⟩, ⟨"bot".data, "a2".data⟩]
            ∨ (2 * 2 < ([⟨"user".data, "q1".data⟩, ⟨"bot".data, "a1".data⟩,
                 ⟨"user".data, "q2".data⟩, ⟨"bot".data, "a2".data⟩] : List Turn).length + 2
              ∧ pre = ([⟨"user".data, "q1".data⟩, ⟨"bot".data, "a1".data⟩,
                  ⟨"user".data, "q2".data⟩, ⟨"bot".data, "a2".data⟩] : List Turn).drop 2)) :=
  history_bounded_fifo 2 [⟨"user".data, "q1".data⟩, ⟨"bot".data, "a1".data⟩,
    ⟨"user".data, "q2".data⟩, ⟨"bot".data, "a2".data⟩] "q3".data "a3".data
    (by decide) (by decide) (by decide)

/-! ### Settling the claims: the route's cache and row cap (C2, C3) -/

/-- Inversion of a successful, uncached run of the route handler: the new
cache state is exactly the old one with the response's own
answer/SQL/rows/metadata upserted under the normalized question key, and
the response's `metadata.resultCount` is the length of its (possibly
capped) `rawData`. -/
theorem handleAsk_ok_uncached {cap mr : Nat} {sv : Services}
    {cache : List (Str × CacheEntry)} {q : Str} {r : AskOk}
    {c' : List (Str × CacheEntry)} {tags : List Stage}
    (hrun : handleAsk cap mr sv cache q = (.ok r, c', tags))
    (hmiss : r.cached = false) :
    c' = cacheSet (normKey q) ⟨r.answer, r.generatedSql, r.rawData, r.metadata⟩ cache
      ∧ r.metadata.resultCount = r.rawData.length := by
  simp only [handleAsk] at hrun
  cases hget : cacheGet (normKey q) cache with
  | some e =>
    simp only [hget, Prod.mk.injEq, Except.ok.injEq] at hrun
    obtain ⟨h1, -, -⟩ := hrun
    rw [← h1] at hmiss
    simp at hmiss
  | none =>
    simp only [hget] at hrun
    cases hret : sv.retrieve q with
    | error err => simp only [hret] at hrun; simp at hrun
    | ok ctx =>
      simp only [hret] at hrun
      by_cases hctx : (trimStr ctx).isEmpty = true
      · simp only [hctx, if_true] at hrun
        simp at hrun
      · simp only [hctx, Bool.false_eq_true, if_false] at hrun
        cases hsql : generateSql sv.sqlComp mr with
        | error err => simp only [hsql] at hrun; simp at hrun
        | ok sqlq =>
          simp only [hsql] at hrun
          cases hexec : executeQuery sv.db sqlq with
          | error err => simp only [hexec] at hrun; simp at hrun
          | ok results =>
            simp only [hexec, Prod.mk.injEq, Except.ok.injEq] at hrun
            obtain ⟨h1, h2, -⟩ := hrun
            subst h1
            exact ⟨h2.symm, rfl⟩

/-- C3: after a successful uncached run for question `q`, re-submitting any
question with the same normalized (case-folded, trimmed) form against the
resulting cache returns the identical answer/SQL/rows/metadata from the
cache, marked `cached = true`, leaves the cache unchanged, and invokes no
pipeline stage — for any services (even unreachable ones) and limits. -/
theorem cache_hit_replays {cap mr : Nat} {sv : Services}
    {cache : List (Str × CacheEntry)} {q : Str} {r : AskOk}
    {c' : List (Str × CacheEntry)} {tags : List Stage}
    (hrun : handleAsk cap mr sv cache q = (.ok r, c', tags))
    (hmiss : r.cached = false)
    (cap2 mr2 : Nat) (sv2 : Services) (q2 : Str)
    (hnorm : normKey q2 = normKey q) :
    handleAsk cap2 mr2 sv2 c' q2
      = (.ok ⟨r.answer, r.generatedSql, r.rawData, r.metadata, true⟩, c', []) := by
  obtain ⟨hc, -⟩ := handleAsk_ok_uncached hrun hmiss
  subst hc
  simp only [handleAsk, hnorm]
  have hhit : cacheGet (normKey q)
      (cacheSet (normKey q) ⟨r.answer, r.generatedSql, r.rawData, r.metadata⟩ cache)
        = some ⟨r.answer, r.generatedSql, r.rawData, r.metadata⟩ := by
    simp [cacheGet, cacheSet, List.find?]
  rw [hhit]

/-- Concrete services whose executor returns three rows (used to exercise the
row cap). -/
def svRowCap : Services :=
  ⟨fun _ => .ok "Table: dbo.employees".data,
   fun _ => .ok "SELECT 1".data,
   fun _ => .ok [[("a".data, "1".data)], [("a".data, "2".data)], [("a".data, "3".data)]],
   fun _ => .ok "three rows".data⟩

/-- C2 counterexample: with a cap of 2 the executor hands back three rows;
the response truncates `rawData` to the two capped rows, but its only
row-count field, `metadata.resultCount`, reports 2 — the pre-truncation
count 3 is not preserved anywhere in the response (it survives only in a
log line), and the faithfully modelled response payload has no
truncation-flag field at all. -/
theorem rowcap_metadata_counterexample :
    svRowCap.db "SELECT 1;".data
        = .ok [[("a".data, "1".data)], [("a".data, "2".data)], [("a".data, "3".data)]]
      ∧ (handleAsk 2 1 svRowCap [] "how many".data).1
          = .ok ⟨"three rows".data, "SELECT 1;".data,
              [[("a".data, "1".data)], [("a".data, "2".data)]], ⟨1, 2⟩, false⟩
      ∧ (2 : Nat) ≠ 3 :=
  ⟨rfl, rfl, by decide⟩

/-- C2 amended: when the executor returns more rows than the configured cap,
the response's `rawData` has exactly the cap's number of rows; but the
response carries no truncation flag, and its `metadata.resultCount`
records the truncated count (it always equals `rawData.length`), not the
pre-truncation count. -/
theorem rowcap_truncates_exactly {cap : Nat} {rows : List Row}
    (hbig : cap < rows.length) {mr : Nat} {sv : Services}
    {cache : List (Str × CacheEntry)} {q : Str} {r : AskOk}
    {c' : List (Str × CacheEntry)} {tags : List Stage}
    (hrun : handleAsk cap mr sv cache q = (.ok r, c', tags))
    (hmiss : r.cached = false) :
    (capRows cap rows).length = cap
      ∧ r.metadata.resultCount = r.rawData.length := by
  refine ⟨?_, (handleAsk_ok_uncached hrun hmiss).2⟩
  unfold capRows
  rw [if_pos hbig]
  simp only [List.length_take]
  omega

/-- Witness for the amended C2 on the concrete three-row run with cap 2. -/
theorem rowcap_truncates_exactly_witness :
    (capRows 2 [[("a".data, "1".data)], [("a".data, "2".data)], [("a".data, "3".data)]]).length = 2
      ∧ (⟨"three rows".data, "SELECT 1;".data,
            [[("a".data, "1".data)], [("a".data, "2".data)]], ⟨1, 2⟩, false⟩ : AskOk).metadata.resultCount
        = (⟨"three rows".data, "SELECT 1;".data,
            [[("a".data, "1".data)], [("a".data, "2".data)]], ⟨1, 2⟩, false⟩ : AskOk).rawData.length :=
  @rowcap_truncates_exactly 2
    [[("a".data, "1".data)], [("a".data, "2".data)], [("a".data, "3".data)]]
    (by decide) 1 svRowCap [] "how many".data
    ⟨"three rows".data, "SELECT 1;".data,
      [[("a".data, "1".data)], [("a".data, "2".data)]], ⟨1, 2⟩, false⟩
    (cacheSet (normKey "how many".data)
      ⟨"three rows".data, "SELECT 1;".data,
        [[("a".data, "1".data)], [("a".data, "2".data)]], ⟨1, 2⟩⟩ [])
    [Stage.retrieve, Stage.genSql, Stage.exec, Stage.analyze]
    rfl rfl

/-- Concrete services for a successful single-cell pipeline run. -/
def svCount : Services :=
  ⟨fun _ => .ok "Table: dbo.employees".data,
   fun _ => .ok "SELECT COUNT(*) FROM dbo.employees".data,
   fun _ => .ok [[("cnt".data, "42".data)]],
   fun _ => .ok "There are 42 employees.".data⟩

/-- Services that fail every external call (the cache hit must never reach
them). -/
def svDown : Services :=
  ⟨fun _ => .error "store down".data,
   fun _ => .error "model down".data,
   fun _ => .error ⟨"ECONNRESET".data, 0, "socket hang up".data⟩,
   fun _ => .error "model down".data⟩

/-- Witness for C3: a successful run for `How Many Employees`, then a replay
of `  how many employees ` (same normalized form) against dead services
returns the identical cached answer/SQL pair, marked cached, with no
stage invoked and the cache unchanged. -/
theorem cache_hit_replays_witness :
    handleAsk 7 9 svDown
        (cacheSet (normKey "How Many Employees".data)
          ⟨"Result: 42".data, "SELECT COUNT(*) FROM dbo.employees;".data,
           [[("cnt".data, "42".data)]], ⟨1, 1⟩⟩ [])
        "  how many employees ".data
      = (.ok ⟨"Result: 42".data, "SELECT COUNT(*) FROM dbo.employees;".data,
            [[("cnt".data, "42".data)]], ⟨1, 1⟩, true⟩,
         cacheSet (normKey "How Many Employees".data)
          ⟨"Result: 42".data, "SELECT COUNT(*) FROM dbo.employees;".data,
           [[("cnt".data, "42".data)]], ⟨1, 1⟩⟩ [],
         []) :=
  @cache_hit_replays 1000 3 svCount [] "How Many Employees".data
    ⟨"Result: 42".data, "SELECT COUNT(*) FROM dbo.employees;".data,
      [[("cnt".data, "42".data)]], ⟨1, 1⟩, false⟩
    (cacheSet (normKey "How Many Employees".data)
      ⟨"Result: 42".data, "SELECT COUNT(*) FROM dbo.employees;".data,
       [[("cnt".data, "42".data)]], ⟨1, 1⟩⟩ [])
    [Stage.retrieve, Stage.genSql, Stage.exec, Stage.analyze]
    rfl rfl 7 9 svDown "  how many employees ".data (by decide)

/-! ### Settling the claims: user-visible error payloads (C6) -/

/-- A concrete driver timeout error carrying raw driver internals in its
message. -/
def timeoutDriverErr : DbErr :=
  ⟨"ETIMEOUT".data, 0,
   "RequestError: Timeout: Request failed to complete in 30000ms".data⟩

/-- C6 counterexample: for a driver timeout, `executeQuery` throws a message
that appends the raw driver error text after "Technical details:", the
global error handler forwards that message verbatim as the user-visible
payload (so the payload contains the driver internals), and in
development mode the payload even carries the raw stack trace. -/
theorem error_payload_leaks_driver_text :
    executeQuery (fun _ => .error timeoutDriverErr) "SELECT 1".data
        = .error (execFailureMessage timeoutDriverErr)
      ∧ containsSeq timeoutDriverErr.message
          ((errorHandler false (execFailureMessage timeoutDriverErr) "stack".data).message)
        = true
      ∧ (errorHandler true (execFailureMessage timeoutDriverErr) "stack".data).stack
        = some "stack".data :=
  ⟨rfl, by decide, rfl⟩

/-- C6 amended: every terminal failure payload carries a human-readable
message (the error's own message, defaulted when empty) and includes a
stack trace exactly in development mode; the executor maps known driver
failures onto friendly summaries but appends the raw driver message after
"Technical details:", so driver internals do reach the user-visible
payload; and a stable code tag exists only on the validation
middleware's 400 rejections, which always carry one of four fixed codes
— the global error handler's payload itself has no kind tag. -/
theorem error_payload_amended (isDev : Bool) (m stack : Str) (e : DbErr)
    (maxLen : Nat) (q : Str) :
    ((errorHandler isDev m stack).stack = none ↔ isDev = false)
      ∧ (m ≠ [] → (errorHandler isDev m stack).message = m)
      ∧ (∃ pre, execFailureMessage e = pre ++ e.message)
      ∧ (∀ err code, validateQuestion maxLen q = .rejected err code →
          code ∈ validationCodes) := by
  refine ⟨?_, ?_, ?_, ?_⟩
  · unfold errorHandler
    cases isDev <;> simp
  · intro hm
    unfold errorHandler
    have : m.isEmpty = false := by
      cases m with
      | nil => exact absurd rfl hm
      | cons c cs => rfl
    simp [this]
  · exact ⟨friendlyDbMessage e ++ " Technical details: ".data,
      by simp [execFailureMessage, List.append_assoc]⟩
  · intro err code h
    unfold validateQuestion at h
    split at h
    · injection h with h1 h2; subst h2; decide
    · split at h
      · injection h with h1 h2; subst h2; decide
      · split at h
        · injection h with h1 h2; subst h2; decide
        · split at h
          · injection h with h1 h2; subst h2; decide
          · exact absurd h (by simp)

/-- Witness for the amended C6: a production-mode payload for a non-empty
message, and the missing-question rejection's code being one of the four
stable codes. -/
theorem error_payload_amended_witness :
    (errorHandler false "boom".data "st".data).message = "boom".data
      ∧ "MISSING_QUESTION".data ∈ validationCodes :=
  ⟨(error_payload_amended false "boom".data "st".data timeoutDriverErr 500 []).2.1
      (by decide),
   (error_payload_amended false "boom".data "st".data timeoutDriverErr 500 []).2.2.2
      "Question is required.".data "MISSING_QUESTION".data rfl⟩
